import Mathlib

/-!
Verification of the IRC line parser (`src/message.rs`) of the `loirc`
repository. Strings are embedded as `List Char`; every delimiter the parser
searches for (`' '`, `'!'`, `'@'`, `':'`, `"\r\n"`) is ASCII, so Rust's
byte-index slicing at a found delimiter coincides with char-position
slicing, and the embedding below mirrors the source token by token.
-/

deriving instance DecidableEq for Except

namespace Irc

/-- Embeds `enum ParseError` of `message.rs`. -/
inductive ParseError where
  | EmptyCommand : ParseError
  | EmptyMessage : ParseError
  | UnexpectedEnd : ParseError
deriving DecidableEq

/-- Embeds `struct User` of `message.rs`. -/
structure User where
  nickname : List Char
  username : List Char
  hostname : List Char
deriving DecidableEq

/-- Embeds `enum Prefix` of `message.rs`. -/
inductive Pfx where
  | User : User → Pfx
  | Server : List Char → Pfx
deriving DecidableEq

/-- Embeds `enum Code` of `code.rs` in collapsed form: one known variant
(`Nick`, the known code exercised by the repository's tests) plus the
`Unknown(String)` fallback that `message.rs` constructs itself. -/
inductive Code where
  | Nick : Code
  | Unknown : List Char → Code
deriving DecidableEq

/-- Embeds `struct Message` of `message.rs`; the Rust field `prefix`
is called `pfx` here because `prefix` is a reserved word in Lean. -/
structure Message where
  pfx : Option Pfx
  code : Code
  args : List (List Char)
  suffix : Option (List Char)
deriving DecidableEq

/-- Modelled from the spec: the Code Resolver (`Code::from_str` in
`code.rs`, a file not present under `src/`) is, per spec section 4.3, an
exact case-sensitive match of the token against a fixed table of known
commands, with no result for an unrecognized token. The table here carries
the one known command the spec and the repository's tests name, `NICK`. -/
def resolveCode (text : List Char) : Option Code :=
  if text = "NICK".data then some Code.Nick else none

/-- Embeds the code-resolution match of `Message::parse` (lines 91-99 of
`message.rs`): a token the resolver recognizes becomes its typed code, any
other token becomes `Code::Unknown` wrapping the token unchanged. -/
def codeOfText (text : List Char) : Code :=
  match resolveCode text with
  | some c => c
  | none => Code.Unknown text

/-- Models Rust `char::is_whitespace` (the Unicode White_Space property),
used by `str::trim` in the blank check of `Message::parse`. -/
def rustIsWhitespace (c : Char) : Bool :=
  c = '\u0009' || c = '\u000A' || c = '\u000B' || c = '\u000C' || c = '\u000D' ||
  c = '\u0020' || c = '\u0085' || c = '\u00A0' || c = '\u1680' || c = '\u2000' ||
  c = '\u2001' || c = '\u2002' || c = '\u2003' || c = '\u2004' || c = '\u2005' ||
  c = '\u2006' || c = '\u2007' || c = '\u2008' || c = '\u2009' || c = '\u200A' ||
  c = '\u2028' || c = '\u2029' || c = '\u202F' || c = '\u205F' || c = '\u3000'

/-- Models Rust `str::trim`: drop Unicode whitespace from both ends. Only
its emptiness is consulted by `Message::parse` (the blank check). -/
def rustTrim (s : List Char) : List Char :=
  (((s.dropWhile rustIsWhitespace).reverse).dropWhile rustIsWhitespace).reverse

/-- Helper for `trimRightCrlf`: on a reversed string, repeatedly strip a
leading `'\n', '\r'` pair, i.e. strip trailing `"\r\n"` pairs of the
original string. -/
def stripCrlfRev : List Char → List Char
  | '\n' :: '\r' :: rest => stripCrlfRev rest
  | s => s

/-- Models Rust `line.trim_right_matches("\r\n")` as called by
`Message::parse`: repeatedly removes a trailing `"\r\n"` while one is
present. -/
def trimRightCrlf (s : List Char) : List Char :=
  (stripCrlfRev s.reverse).reverse

/-- Models Rust `state.find(d)` combined with the two slicings
`state[..idx]` and `state[idx + 1..]` that every use site of `find` in
`message.rs` performs: `none` when the delimiter does not occur, otherwise
the text before the first occurrence and the text after it. -/
def splitFirst (c : Char) : List Char → Option (List Char × List Char)
  | [] => none
  | x :: xs =>
    if x = c then some ([], xs)
    else
      match splitFirst c xs with
      | none => none
      | some (a, b) => some (x :: a, b)

/-- Embeds `fn parse_prefix` of `message.rs` (lines 110-126): no `'!'`
gives a `Server` prefix verbatim; `'!'` followed somewhere by `'@'` gives
a `User` prefix from the three slices; `'!'` with no later `'@'` gives no
prefix at all. -/
def parsePfx (tok : List Char) : Option Pfx :=
  match splitFirst '!' tok with
  | none => some (Pfx.Server tok)
  | some (nick, rest) =>
    match splitFirst '@' rest with
    | none => none
    | some (user, host) => some (Pfx.User ⟨nick, user, host⟩)

/-- Embeds the argument/suffix loop of `Message::parse` (lines 70-89),
made structurally recursive through a fuel argument: a state starting with
`':'` ends the loop with the remainder as the suffix; otherwise the text
up to the next space is pushed as an argument and the loop continues past
the space, or, with no space left, the whole remaining text is the last
argument. Each iteration of the source loop shortens the state, so with
fuel exceeding the state's length the fuel-exhausted branch is never
taken. -/
def argsLoopF : Nat → List Char → List (List Char) × Option (List Char)
  | 0, s => ([s], none)
  | Nat.succ fuel, s =>
    match s with
    | ':' :: rest => ([], some rest)
    | s' =>
      match splitFirst ' ' s' with
      | none => ([s'], none)
      | some (a, b) =>
        let p := argsLoopF fuel b
        (a :: p.1, p.2)

/-- The argument/suffix loop of `Message::parse` at its actual entry
state, with enough fuel for every iteration. -/
def argsLoop (s : List Char) : List (List Char) × Option (List Char) :=
  argsLoopF (s.length + 1) s

/-- Embeds the final `match code` of `Message::parse` (lines 91-106):
`None` fails with `EmptyCommand`, `Some` resolves the code token and
assembles the `Message`. -/
def mkResult (pfx : Option Pfx) (codeOpt : Option (List Char))
    (args : List (List Char)) (suffix : Option (List Char)) :
    Except ParseError Message :=
  match codeOpt with
  | none => Except.error ParseError.EmptyCommand
  | some text => Except.ok ⟨pfx, codeOfText text, args, suffix⟩

/-- Embeds `Message::parse` from the command/code step on (lines 55-106),
with the already-resolved optional prefix and the working state after the
prefix step: the command token is the text before the next space, or the
whole state when no space is left and the state is non-empty (an empty
state fails with `EmptyMessage`); then the argument/suffix loop runs on a
non-empty remaining state, and the final code match assembles the
result. -/
def parseAfterPfx (pfx : Option Pfx) (st : List Char) :
    Except ParseError Message :=
  match splitFirst ' ' st with
  | none =>
    if st.length = 0 then Except.error ParseError.EmptyMessage
    else mkResult pfx (some st) [] none
  | some (c, after) =>
    let p := if after.length > 0 then argsLoop after else ([], none)
    mkResult pfx (some c) p.1 p.2

/-- Embeds `Message::parse` of `message.rs` (lines 32-107): the blank
check, the strip of trailing `"\r\n"`, the optional prefix step (a leading
`':'` with no following space fails with `UnexpectedEnd`; with a space,
the token between `':'` and the space goes to `parse_prefix`), then the
command and argument steps of `parseAfterPfx`. -/
def parse (line : List Char) : Except ParseError Message :=
  if line.length = 0 ∨ (rustTrim line).length = 0 then
    Except.error ParseError.EmptyMessage
  else
    match trimRightCrlf line with
    | ':' :: rest =>
      match splitFirst ' ' rest with
      | none => Except.error ParseError.UnexpectedEnd
      | some (ptok, st) => parseAfterPfx ( parsePfx ptok) st
    | st => parseAfterPfx none st

/-- The parser applied to a Lean string literal. -/
def parseS (line : String) : Except ParseError Message :=
  parse line.data

/-! Helper lemmas about the embedded tokenizing functions. -/

theorem stripCrlfRev_append (r : List Char) : ∃ t, r = t ++ stripCrlfRev r := by
  generalize hn : r.length = n
  induction n using Nat.strong_induction_on generalizing r with
  | _ n ih =>
    subst hn
    rw [stripCrlfRev.eq_def]
    split
    · next rest =>
      obtain ⟨t, ht⟩ := ih rest.length (by simp; omega) rest rfl
      exact ⟨'\n' :: '\r' :: t, by rw [List.cons_append, List.cons_append, ← ht]⟩
    · exact ⟨[], by simp⟩

theorem stripCrlfRev_of_not_crlf (r : List Char)
    (h : ∀ x : List Char, r ≠ '\n' :: '\r' :: x) : stripCrlfRev r = r := by
  rw [stripCrlfRev.eq_def]
  split
  · next rest => exact absurd rfl (h rest)
  · rfl

theorem mem_of_mem_trimRightCrlf {c : Char} {s : List Char}
    (h : c ∈ trimRightCrlf s) : c ∈ s := by
  obtain ⟨t, ht⟩ := stripCrlfRev_append s.reverse
  rw [trimRightCrlf, List.mem_reverse] at h
  have : c ∈ s.reverse := by rw [ht]; exact List.mem_append_right t h
  rwa [List.mem_reverse] at this

theorem mem_dropWhile_of_mem {c : Char} {p : Char → Bool} {l : List Char}
    (hc : c ∈ l) (hp : p c = false) : c ∈ l.dropWhile p := by
  induction l with
  | nil => cases hc
  | cons x xs ih =>
    by_cases hx : p x = true
    · rw [List.dropWhile_cons_of_pos hx]
      rcases List.mem_cons.mp hc with h | h
      · subst h; rw [hp] at hx; cases hx
      · exact ih h
    · rw [List.dropWhile_cons_of_neg hx]
      exact hc

theorem mem_rustTrim_of_mem {c : Char} {l : List Char}
    (hc : c ∈ l) (hw : rustIsWhitespace c = false) : c ∈ rustTrim l := by
  rw [rustTrim, List.mem_reverse]
  refine mem_dropWhile_of_mem ?_ hw
  rw [List.mem_reverse]
  exact mem_dropWhile_of_mem hc hw

theorem not_blank_of_colon {line rest : List Char}
    (h : trimRightCrlf line = ':' :: rest) :
    ¬(line.length = 0 ∨ (rustTrim line).length = 0) := by
  have hc : (':' : Char) ∈ line := by
    refine mem_of_mem_trimRightCrlf ?_
    rw [h]; exact List.mem_cons_self _ _
  rintro (h0 | h0)
  · rw [List.length_eq_zero] at h0
    subst h0; cases hc
  · rw [List.length_eq_zero] at h0
    have : (':' : Char) ∈ rustTrim line := mem_rustTrim_of_mem hc (by decide)
    rw [h0] at this; cases this

theorem splitFirst_eq_none_iff {c : Char} {l : List Char} :
    splitFirst c l = none ↔ c ∉ l := by
  induction l with
  | nil => simp [splitFirst]
  | cons x xs ih =>
    by_cases hx : x = c
    · subst hx; simp [splitFirst]
    · rw [splitFirst, if_neg hx]
      cases hs : splitFirst c xs with
      | none =>
        rw [hs] at ih
        constructor
        · intro _
          rw [List.mem_cons]
          rintro (h1 | h2)
          · exact hx h1.symm
          · exact (ih.mp rfl) h2
        · intro _; rfl
      | some p =>
        simp only [hs, List.mem_cons]
        constructor
        · intro habs; cases habs
        · intro hnot
          have : c ∈ xs := by
            by_contra hcx
            rw [← ih] at hcx
            rw [hcx] at hs; cases hs
          exact absurd (Or.inr this) hnot

theorem parse_of_colon {line rest : List Char}
    (h : trimRightCrlf line = ':' :: rest) :
    parse line = match splitFirst ' ' rest with
      | none => Except.error ParseError.UnexpectedEnd
      | some (ptok, st) => parseAfterPfx ( parsePfx ptok) st := by
  rw [parse, if_neg (not_blank_of_colon h), h]
  rfl

theorem parseAfterPfx_nil (pfx : Option Pfx) :
    parseAfterPfx pfx [] = Except.error ParseError.EmptyMessage := rfl

theorem parseAfterPfx_ne_emptyCommand (pfx : Option Pfx) (st : List Char) :
    parseAfterPfx pfx st ≠ Except.error ParseError.EmptyCommand := by
  rw [parseAfterPfx]
  split
  · split
    · intro habs; cases habs
    · intro habs; cases habs
  · intro habs; cases habs


/-! Theorems settling the specification claims. -/

/-- Claim C1, counterexample: on the line named by the claim, the parse
result's args sequence is not `["arg1", "arg2", "free text here"]` — the
trailing free-text token is not folded into args. -/
theorem trailing_in_args_counterexample :
    (parseS ( ":bob!bob@bob.com COMMAND arg1 arg2 :free text here" )).map
      Message.args ≠
      Except.ok [ "arg1".data, "arg2".data, "free text here".data ] := by
  decide

/-- Claim C1 as amended: the `:`-introduced trailing free-text token is
carried verbatim (internal spaces preserved) in the separate `suffix`
field of the result, not as the final element of args; the argument loop
reaching a `':'`-led state stores the whole remainder as the suffix, and
the claim's line parses with `args == ["arg1", "arg2"]` and
`suffix == Some("free text here")`. -/
theorem trailing_in_suffix_field :
    (∀ rest : List Char, argsLoop (':' :: rest) = ([], some rest)) ∧
    parseS ( ":bob!bob@bob.com COMMAND arg1 arg2 :free text here" ) =
      Except.ok ⟨some (Pfx.User ⟨ "bob".data, "bob".data, "bob.com".data ⟩),
        Code.Unknown ( "COMMAND".data ),
        [ "arg1".data, "arg2".data ], some ( "free text here".data )⟩ := by
  constructor
  · intro rest; rfl
  · decide

/-- Claim C2, counterexample: the line `":prefix "`, whose working state
is exhausted by the prefix and its trailing space, does not fail with
`EmptyCommand`. -/
theorem exhausted_state_emptycommand_counterexample :
    parseS ( ":prefix " ) ≠ Except.error ParseError.EmptyCommand := by
  decide

/-- Claim C2 as amended: for every input line whose working state is
exhausted before a command token can be extracted (a prefix whose
following space ends the line), parse fails with `EmptyMessage`, not
`EmptyCommand`. -/
theorem exhausted_state_yields_emptymessage (line rest ptok : List Char)
    (h1 : trimRightCrlf line = ':' :: rest)
    (h2 : splitFirst ' ' rest = some (ptok, [])) :
    parse line = Except.error ParseError.EmptyMessage := by
  rw [parse_of_colon h1, h2]
  exact parseAfterPfx_nil ( parsePfx ptok)

/-- Claim C2 witness: the amended statement applied to `":prefix "`. -/
theorem exhausted_state_yields_emptymessage_witness :
    parse ( ":prefix ".data ) = Except.error ParseError.EmptyMessage :=
  exhausted_state_yields_emptymessage ( ":prefix ".data ) ( "prefix ".data )
    ( "prefix".data ) (by decide) (by decide)

/-- Claim C3, counterexample: an input ending in two `"\r\n"` sequences
has both removed by the pre-tokenizing strip — the working state does not
still end in one `"\r\n"`, so the strip does not remove exactly one. -/
theorem strip_single_crlf_counterexample :
    trimRightCrlf ( "NICK\r\n\r\n".data ) ≠ ( "NICK\r\n".data ) ∧
    trimRightCrlf ( "NICK\r\n\r\n".data ) = ( "NICK".data ) := by
  decide

/-- Claim C3 as amended: before tokenizing, parse removes every trailing
`"\r\n"` sequence (zero or more of them), and nothing else: appending one
more `"\r\n"` never changes the working state, and an input that does not
end in `"\r\n"` (in particular one ending in other whitespace) is left
untouched. -/
theorem strip_all_crlf :
    (∀ s : List Char, trimRightCrlf (s ++ ['\r', '\n']) = trimRightCrlf s) ∧
    (∀ s : List Char, s.reverse.take 2 ≠ ['\n', '\r'] → trimRightCrlf s = s) := by
  constructor
  · intro s
    rw [trimRightCrlf, trimRightCrlf, List.reverse_append]
    rfl
  · intro s h
    have hr : ∀ x : List Char, s.reverse ≠ '\n' :: '\r' :: x := by
      intro x hx
      exact h (by rw [hx]; rfl)
    rw [trimRightCrlf, stripCrlfRev_of_not_crlf _ hr, List.reverse_reverse]

/-- Claim C3 witness: the amended statement applied to `"NICK\r\n"` (one
more pair stripped) and to `"NICK"` (left untouched). -/
theorem strip_all_crlf_witness :
    trimRightCrlf ( "NICK\r\n".data ++ ['\r', '\n']) =
      trimRightCrlf ( "NICK\r\n".data ) ∧
    trimRightCrlf ( "NICK".data ) = ( "NICK".data ) :=
  ⟨strip_all_crlf.1 ( "NICK\r\n".data ),
   strip_all_crlf.2 ( "NICK".data ) (by decide)⟩

/-- Claim C4: a prefix token containing `'!'` but no `'@'` after it
yields no prefix at all rather than an error, and the claim's line
`":nick!garbage COMMAND arg"` parses successfully with an absent prefix
and the code and argument parsed normally. -/
theorem malformed_pfx_discarded :
    (∀ t nick rest : List Char,
      splitFirst '!' t = some (nick, rest) → '@' ∉ rest → parsePfx t = none) ∧
    parseS ( ":nick!garbage COMMAND arg" ) =
      Except.ok ⟨none, Code.Unknown ( "COMMAND".data ), [ "arg".data ], none⟩ := by
  constructor
  · intro t nick rest h1 h2
    simp [parsePfx, h1, splitFirst_eq_none_iff.mpr h2]
  · decide

/-- Claim C4 witness: the general part applied to the token
`"nick!garbage"`. -/
theorem malformed_pfx_discarded_witness :
    parsePfx ( "nick!garbage".data ) = none :=
  malformed_pfx_discarded.1 ( "nick!garbage".data ) ( "nick".data )
    ( "garbage".data ) (by decide) (by decide)

/-- Claim C5: every command token the code resolver does not recognize
resolves to `Unknown` wrapping exactly the original token text,
unmodified. -/
theorem unknown_code_verbatim (text : List Char)
    (h : resolveCode text = none) : codeOfText text = Code.Unknown text := by
  rw [codeOfText, h]

/-- Claim C5 witness: the statement applied to the token `"COMMAND"`. -/
theorem unknown_code_verbatim_witness :
    codeOfText ( "COMMAND".data ) = Code.Unknown ( "COMMAND".data ) :=
  unknown_code_verbatim ( "COMMAND".data ) (by decide)

/-- Claim C6: an input that after CRLF stripping starts with `':'` and
contains no space fails with `UnexpectedEnd`. -/
theorem colon_no_space_unexpectedend (line rest : List Char)
    (h1 : trimRightCrlf line = ':' :: rest)
    (h2 : ' ' ∉ trimRightCrlf line) :
    parse line = Except.error ParseError.UnexpectedEnd := by
  have h2' : ' ' ∉ rest := fun hm => h2 (h1 ▸ List.mem_cons_of_mem ':' hm)
  rw [parse_of_colon h1, splitFirst_eq_none_iff.mpr h2']

/-- Claim C6 witness: the statement applied to `":only.a.prefix"`. -/
theorem colon_no_space_unexpectedend_witness :
    parse ( ":only.a.prefix".data ) = Except.error ParseError.UnexpectedEnd :=
  colon_no_space_unexpectedend ( ":only.a.prefix".data )
    ( "only.a.prefix".data ) (by decide) (by decide)

/-- Claim C7: every input that is empty or consists only of whitespace
fails with `EmptyMessage`. -/
theorem blank_line_emptymessage (line : List Char)
    (h : ∀ c ∈ line, rustIsWhitespace c = true) :
    parse line = Except.error ParseError.EmptyMessage := by
  have hd : line.dropWhile rustIsWhitespace = [] :=
    List.dropWhile_eq_nil_iff.mpr h
  have hb : (rustTrim line).length = 0 := by rw [rustTrim, hd]; rfl
  rw [parse, if_pos (Or.inr hb)]

/-- Claim C7 witness: the statement applied to `""` and to `"    "`. -/
theorem blank_line_emptymessage_witness :
    parse ([] : List Char) = Except.error ParseError.EmptyMessage ∧
    parse ( "    ".data ) = Except.error ParseError.EmptyMessage :=
  ⟨blank_line_emptymessage [] (by decide),
   blank_line_emptymessage ( "    ".data ) (by decide)⟩

/-- Claim C8: a prefix token without `'!'` is a `Server` prefix verbatim;
a token split by `'!'` whose remainder is split by `'@'` is a `User`
prefix made of the three slices. -/
theorem pfx_server_user_split :
    (∀ t : List Char, '!' ∉ t → parsePfx t = some (Pfx.Server t)) ∧
    (∀ t nick rest user host : List Char,
      splitFirst '!' t = some (nick, rest) →
      splitFirst '@' rest = some (user, host) →
      parsePfx t = some (Pfx.User ⟨nick, user, host⟩)) := by
  constructor
  · intro t h
    rw [parsePfx, splitFirst_eq_none_iff.mpr h]
  · intro t nick rest user host h1 h2
    simp [parsePfx, h1, h2]

/-- Claim C8 witness: both parts applied to the tokens
`"irc.example.net"` and `"bob!bob@bob.com"`. -/
theorem pfx_server_user_split_witness :
    parsePfx ( "irc.example.net".data ) =
      some (Pfx.Server ( "irc.example.net".data )) ∧
    parsePfx ( "bob!bob@bob.com".data ) =
      some (Pfx.User ⟨ "bob".data, "bob".data, "bob.com".data ⟩) :=
  ⟨pfx_server_user_split.1 ( "irc.example.net".data ) (by decide),
   pfx_server_user_split.2 ( "bob!bob@bob.com".data ) ( "bob".data )
     ( "bob@bob.com".data ) ( "bob".data ) ( "bob.com".data )
     (by decide) (by decide)⟩

/-- Claim C9: parse is a total function — for every input it returns
either a message or exactly one of the three error kinds; the embedding
is built from total list operations, so no slicing can go out of
bounds. -/
theorem parse_total_three_errors (line : List Char) :
    (∃ m, parse line = Except.ok m) ∨
    parse line = Except.error ParseError.EmptyMessage ∨
    parse line = Except.error ParseError.EmptyCommand ∨
    parse line = Except.error ParseError.UnexpectedEnd := by
  cases h : parse line with
  | ok m => exact Or.inl ⟨m, rfl⟩
  | error e =>
    cases e with
    | EmptyCommand => exact Or.inr (Or.inr (Or.inl rfl))
    | EmptyMessage => exact Or.inr (Or.inl rfl)
    | UnexpectedEnd => exact Or.inr (Or.inr (Or.inr rfl))

/-- Claim C10: no input whatsoever makes parse return `EmptyCommand`; on
every path reaching the final code match the code token has been
assigned, and the exhausted-state case returns `EmptyMessage` instead, so
the `EmptyCommand` branch of the final match is unreachable. -/
theorem emptycommand_unreachable (line : List Char) :
    parse line ≠ Except.error ParseError.EmptyCommand := by
  rw [parse]
  split
  · intro habs; cases habs
  · split
    · split
      · intro habs; cases habs
      · exact parseAfterPfx_ne_emptyCommand _ _
    · exact parseAfterPfx_ne_emptyCommand _ _

end Irc
